import Mathlib

/-!
Verification of the room/replay subsystem of the snake3d repository.

The definitions below are a shallow embedding of the server-side room code:

* data shapes from src/server/room/types.ts (JavaScript numbers are embedded
  as rationals: every finite IEEE double is rational, and the room code only
  compares, adds and multiplies them);
* the eviction policy and spawn assignment from src/server/room/RoomRepository.ts
  (addReplayToRoom, assignSpawnIndex, getRoomMeta); storage writes performed by
  an operation are recorded as an explicit effect trace;
* the game-over pipeline from src/server/room/RoomService.ts (processGameOver);
* the plausibility validator RoomValidator (replay validator source file);
  its geometry (Math.sqrt) is embedded over the reals.
-/

namespace Snake3d

/-- Vec3 from types.ts: a plain x,y,z triple used for all persisted spatial data. -/
structure Vec3 where
  x : ℚ
  y : ℚ
  z : ℚ
deriving DecidableEq

/-- TrajectoryChange from types.ts: at this position the heading changed to
this direction. -/
structure TrajectoryChange where
  position : Vec3
  direction : Vec3
deriving DecidableEq

/-- StartParams from types.ts.  The spawnIndex is embedded as an Option because
processGameOver guards it with a typeof-number check (a payload may carry a
missing or non-numeric spawnIndex at runtime). -/
structure StartParams where
  seed : Int
  spawnIndex : Option ℚ
  initialSpeed : ℚ
  startPosition : Option Vec3
  startDirection : Option Vec3
deriving DecidableEq

/-- ReplayData from types.ts: the full run record.  The elo field is written by
RoomService.processGameOver when the payload carries one. -/
structure ReplayData where
  id : String
  playerId : String
  playerName : String
  timestamp : Nat
  startParams : StartParams
  finalScore : ℚ
  elo : Option ℚ
  deathPosition : Vec3
  trajectoryLog : List TrajectoryChange
deriving DecidableEq

/-- PhantomInfo from types.ts: the per-room metadata record of an active
phantom.  spawnIndex is an Option because assignSpawnIndex filters entries
with an undefined spawnIndex (legacy room formats lacked the field). -/
structure PhantomInfo where
  replayId : String
  score : ℚ
  spawnIndex : Option ℚ
  playerId : Option String
deriving DecidableEq

/-- RoomMeta from types.ts: the meta.json record of a room. -/
structure RoomMeta where
  seed : String
  total_games_played : Nat
  active_phantoms : List PhantomInfo
  players_history : List String
deriving DecidableEq

/-- MAX_PHANTOMS from RoomRepository.ts: at most 3 active phantoms per room. -/
def MAX_PHANTOMS : Nat := 3

/-- MAX_SPAWN_POINTS from RoomRepository.ts: 4 spawn points per room. -/
def MAX_SPAWN_POINTS : Nat := 4

/-- Storage writes a repository operation performs, in order.  saveRoomMeta,
saveReplay and deleteReplay from RoomRepository.ts are the only mutating
file operations of the room store. -/
inductive Effect where
  | saveMeta (seed : String) (meta : RoomMeta)
  | saveReplay (seed : String) (replay : ReplayData)
  | deleteReplay (seed : String) (replayId : String)
deriving DecidableEq

/-- The spawn-collision lookup of addReplayToRoom:
findIndex(p => p.spawnIndex === replay.startParams.spawnIndex) together with
the element at the found index.  Returns the first (index, incumbent) whose
spawnIndex equals the candidate spawn index, or none. -/
def findSpawnCollision : List PhantomInfo → Option ℚ → Option (Nat × PhantomInfo)
  | [], _ => none
  | p :: rest, si =>
    if p.spawnIndex = si then some (0, p)
    else (findSpawnCollision rest si).map (fun r => (r.1 + 1, r.2))

/-- The weakest-phantom loop of addReplayToRoom and assignSpawnIndex: starting
from worst candidate wp at index wi, scan the remaining entries (i is the
absolute index of the head), updating the candidate on a strictly lower
score. -/
def findWorstAux : List PhantomInfo → Nat → Nat → PhantomInfo → Nat × PhantomInfo
  | [], _, wi, wp => (wi, wp)
  | p :: rest, i, wi, wp =>
    if p.score < wp.score then findWorstAux rest (i + 1) i p
    else findWorstAux rest (i + 1) wi wp

/-- The weakest active phantom: index 0 seeds the loop, exactly as the
worstIndex / worstScore loop in RoomRepository.ts. -/
def findWorst : List PhantomInfo → Option (Nat × PhantomInfo)
  | [] => none
  | p :: rest => some (findWorstAux rest 1 0 p)

/-- The newPhantom record built by addReplayToRoom from the candidate replay. -/
def newPhantomOf (replay : ReplayData) : PhantomInfo :=
  { replayId := replay.id
    score := replay.finalScore
    spawnIndex := replay.startParams.spawnIndex
    playerId := some replay.playerId }

/-- Result of addReplayToRoom: the admitted verdict, the metadata as persisted,
and the ordered trace of storage writes. -/
structure AddResult where
  admitted : Bool
  meta : RoomMeta
  effects : List Effect
deriving DecidableEq

/-- Step 1 of addReplayToRoom: increment total_games_played and add the
player to players_history when not already present. -/
def bumpMeta (meta0 : RoomMeta) (replay : ReplayData) : RoomMeta :=
  { meta0 with
    total_games_played := meta0.total_games_played + 1
    players_history :=
      if replay.playerId ∈ meta0.players_history then meta0.players_history
      else meta0.players_history ++ [replay.playerId] }

/-- addReplayToRoom from RoomRepository.ts, on the room metadata it read.
Increments the games counter, records the player in the history, then:
spawn-collision tie-break first (strictly higher score replaces the incumbent
in place, otherwise the candidate is discarded and only the metadata is
saved); with no collision, append while below MAX_PHANTOMS; on a full room,
evict the weakest phantom only when the candidate's score is strictly
higher. -/
def addReplayToRoom (seed : String) (meta0 : RoomMeta) (replay : ReplayData) : AddResult :=
  let meta1 : RoomMeta := bumpMeta meta0 replay
  let newPhantom := newPhantomOf replay
  match findSpawnCollision meta1.active_phantoms replay.startParams.spawnIndex with
  | some (collisionIndex, incumbent) =>
    if replay.finalScore > incumbent.score then
      let meta2 := { meta1 with
        active_phantoms := meta1.active_phantoms.set collisionIndex newPhantom }
      { admitted := true, meta := meta2
        effects := [Effect.deleteReplay seed incumbent.replayId,
                    Effect.saveReplay seed replay, Effect.saveMeta seed meta2] }
    else
      { admitted := false, meta := meta1, effects := [Effect.saveMeta seed meta1] }
  | none =>
    if meta1.active_phantoms.length < MAX_PHANTOMS then
      let meta2 := { meta1 with
        active_phantoms := meta1.active_phantoms ++ [newPhantom] }
      { admitted := true, meta := meta2
        effects := [Effect.saveReplay seed replay, Effect.saveMeta seed meta2] }
    else
      match findWorst meta1.active_phantoms with
      | some (worstIndex, worstPhantom) =>
        if replay.finalScore > worstPhantom.score then
          let meta2 := { meta1 with
            active_phantoms := meta1.active_phantoms.set worstIndex newPhantom }
          { admitted := true, meta := meta2
            effects := [Effect.deleteReplay seed worstPhantom.replayId,
                        Effect.saveReplay seed replay, Effect.saveMeta seed meta2] }
        else
          { admitted := false, meta := meta1, effects := [Effect.saveMeta seed meta1] }
      | none =>
        -- unreachable: this branch runs only when the list has at least
        -- MAX_PHANTOMS = 3 entries, so findWorst returns some
        { admitted := false, meta := meta1, effects := [Effect.saveMeta seed meta1] }

/-- Bound needed to define the cleanup loop: the index returned by the
weakest-phantom scan stays below any n that bounds both the seed index and
the absolute indices of the scanned entries. -/
theorem findWorstAux_fst_lt (rest : List PhantomInfo) (i wi : Nat) (wp : PhantomInfo)
    (n : Nat) (hwi : wi < n) (hrest : i + rest.length ≤ n) :
    (findWorstAux rest i wi wp).1 < n := by
  induction rest generalizing i wi wp with
  | nil => simpa [findWorstAux] using hwi
  | cons p rest ih =>
    simp only [List.length_cons] at hrest
    simp only [findWorstAux]
    split
    · exact ih (i + 1) i p (by omega) (by omega)
    · exact ih (i + 1) wi wp hwi (by omega)

/-- The index of the weakest phantom is a valid index. -/
theorem findWorst_fst_lt {l : List PhantomInfo} {wi : Nat} {wp : PhantomInfo}
    (h : findWorst l = some (wi, wp)) : wi < l.length := by
  match l with
  | [] => simp [findWorst] at h
  | p :: rest =>
    simp only [findWorst, Option.some.injEq] at h
    have := findWorstAux_fst_lt rest 1 0 p (rest.length + 1) (by omega) (by omega)
    rw [h] at this
    simpa using this

/-- The cleanup loop of assignSpawnIndex: while more than MAX_PHANTOMS
phantoms are active, find the weakest, delete its replay and splice it out.
Returns the cleaned list together with the evicted replay ids in eviction
order. -/
def cleanupPhantoms (l : List PhantomInfo) : List PhantomInfo × List String :=
  if h : MAX_PHANTOMS < l.length then
    match hw : findWorst l with
    | some wp =>
      have hlt : wp.1 < l.length := findWorst_fst_lt (by rw [hw])
      have : (l.eraseIdx wp.1).length < l.length := by
        rw [List.length_eraseIdx_of_lt hlt]; omega
      let rest := cleanupPhantoms (l.eraseIdx wp.1)
      (rest.1, wp.2.replayId :: rest.2)
    | none =>
      -- unreachable: MAX_PHANTOMS < length means the list is nonempty
      (l, [])
  else (l, [])
termination_by l.length

/-- The occupied spawn indices of a room:
active_phantoms.filter(p => p.spawnIndex !== undefined).map(p => p.spawnIndex). -/
def occupiedSpawnIndices (l : List PhantomInfo) : List ℚ :=
  l.filterMap (fun p => p.spawnIndex)

/-- The free-spawn scan of assignSpawnIndex: for i from a given start up to
MAX_SPAWN_POINTS, return the first i not contained in the occupied list. -/
def firstFree (occupied : List ℚ) (i : Nat) : Option Nat :=
  if i < MAX_SPAWN_POINTS then
    if (i : ℚ) ∈ occupied then firstFree occupied (i + 1) else some i
  else none
termination_by MAX_SPAWN_POINTS - i

/-- Result of assignSpawnIndex: the metadata after the lazy cleanup, the
assigned spawn index, whether the critical-error fallback (slot 0) was taken,
and the storage writes performed. -/
structure AssignResult where
  meta : RoomMeta
  spawnIndex : Nat
  usedFallback : Bool
  effects : List Effect
deriving DecidableEq

/-- assignSpawnIndex from RoomRepository.ts: lazy cleanup when legacy data
holds more than MAX_PHANTOMS phantoms (evict the weakest repeatedly, then
save the metadata), then return the first spawn index in
[0, MAX_SPAWN_POINTS) not occupied by an active phantom; if every index is
occupied, log a critical error and fall back to slot 0. -/
def assignSpawnIndex (seed : String) (meta0 : RoomMeta) : AssignResult :=
  let needsCleanup := MAX_PHANTOMS < meta0.active_phantoms.length
  let cleaned :=
    if needsCleanup then cleanupPhantoms meta0.active_phantoms
    else (meta0.active_phantoms, [])
  let meta1 := { meta0 with active_phantoms := cleaned.1 }
  let cleanupEffects : List Effect :=
    if needsCleanup then
      cleaned.2.map (Effect.deleteReplay seed) ++ [Effect.saveMeta seed meta1]
    else []
  match firstFree (occupiedSpawnIndices meta1.active_phantoms) 0 with
  | some i =>
    { meta := meta1, spawnIndex := i, usedFallback := false, effects := cleanupEffects }
  | none =>
    { meta := meta1, spawnIndex := 0, usedFallback := true, effects := cleanupEffects }

/-- The shape of a successfully parsed meta.json file.  players_history is an
Option: files written by older formats lack the field, and getRoomMeta
migrates it to an empty list. -/
structure StoredRoomMeta where
  seed : String
  total_games_played : Nat
  active_phantoms : List PhantomInfo
  players_history : Option (List String)
deriving DecidableEq

/-- A failed attempt to read and parse a room's meta.json: the file may be
absent, unreadable, or present but not valid JSON.  getRoomMeta's catch block
treats every one of these alike. -/
inductive ReadError where
  | fileMissing
  | unreadable
  | corruptJson
deriving DecidableEq

/-- The freshly-initialized empty metadata getRoomMeta builds for a room it
could not read: zero games, no phantoms, empty history. -/
def emptyRoomMeta (seed : String) : RoomMeta :=
  { seed := seed, total_games_played := 0, active_phantoms := [], players_history := [] }

/-- getRoomMeta from RoomRepository.ts, as a function of the outcome of
reading and parsing meta.json: any read or parse failure yields a fresh empty
RoomMeta; a parsed record has a missing players_history migrated to []. -/
def getRoomMeta (seed : String) (read : Except ReadError StoredRoomMeta) : RoomMeta :=
  match read with
  | Except.error _ => emptyRoomMeta seed
  | Except.ok s =>
    { seed := s.seed
      total_games_played := s.total_games_played
      active_phantoms := s.active_phantoms
      players_history := s.players_history.getD [] }

/-- Partial<ReplayData> as received in a game:over payload: every field the
service inspects may be absent (or, for spawnIndex, non-numeric). -/
structure PartialReplay where
  playerName : Option String
  startParams : Option StartParams
  finalScore : Option ℚ
  elo : Option ℚ
  deathPosition : Option Vec3
  trajectoryLog : Option (List TrajectoryChange)
deriving DecidableEq

/-- GameOverPayload from types.ts; replay is an Option since the service
guards against a missing replay object. -/
structure GameOverPayload where
  seed : Int
  replay : Option PartialReplay
deriving DecidableEq

/-- Result of processGameOver: the verdict, the user-facing message, the
generated replay id when one was produced, and the storage writes. -/
structure GameOverResult where
  saved : Bool
  message : String
  replayId : Option String
  effects : List Effect
deriving DecidableEq

/-- The replay id generated by processGameOver:
replay_<first 8 chars of playerId>_<Date.now()>. -/
def mkReplayId (playerId : String) (now : Nat) : String :=
  "replay_" ++ (playerId.take 8) ++ "_" ++ toString now

/-- processGameOver from RoomService.ts, on the metadata the repository reads
for the payload's room.  Rejects structurally malformed payloads (missing
trajectory log, missing start params or non-numeric spawnIndex, undefined or
negative score, missing death position) before any storage write; otherwise
builds the complete ReplayData and hands it to addReplayToRoom. -/
def processGameOver (playerId : String) (now : Nat) (meta0 : RoomMeta)
    (payload : GameOverPayload) : GameOverResult :=
  match payload.replay with
  | none => { saved := false, message := "Invalid replay data", replayId := none, effects := [] }
  | some r =>
    match r.trajectoryLog with
    | none => { saved := false, message := "Invalid replay data", replayId := none, effects := [] }
    | some log =>
      match r.startParams with
      | none => { saved := false, message := "Invalid start params", replayId := none, effects := [] }
      | some sp =>
        match sp.spawnIndex with
        | none => { saved := false, message := "Invalid start params", replayId := none, effects := [] }
        | some _ =>
          match r.finalScore with
          | none => { saved := false, message := "Invalid score", replayId := none, effects := [] }
          | some fs =>
            if fs < 0 then
              { saved := false, message := "Invalid score", replayId := none, effects := [] }
            else
              match r.deathPosition with
              | none =>
                { saved := false, message := "Missing death position", replayId := none, effects := [] }
              | some dp =>
                let replayId := mkReplayId playerId now
                let completeReplay : ReplayData :=
                  { id := replayId
                    playerId := playerId
                    playerName := r.playerName.getD ("Player_" ++ playerId.take 4)
                    timestamp := now
                    startParams := sp
                    finalScore := fs
                    elo := r.elo
                    deathPosition := dp
                    trajectoryLog := log }
                let res := addReplayToRoom (toString payload.seed) meta0 completeReplay
                if res.admitted then
                  { saved := true
                    message := "Replay saved! You are now a phantom in this room."
                    replayId := some replayId, effects := res.effects }
                else
                  { saved := false
                    message := "Your score was not high enough to become a phantom."
                    replayId := some replayId, effects := res.effects }

/-- Origin, the default start position when startParams.startPosition is
absent. -/
def vzero : Vec3 := { x := 0, y := 0, z := 0 }

/-- Default start direction (0,0,1) when startParams.startDirection is
absent. -/
def defaultStartDir : Vec3 := { x := 0, y := 0, z := 1 }

/-- The start position the validator walks from. -/
def startPos (r : ReplayData) : Vec3 := r.startParams.startPosition.getD vzero

/-- The start direction the validator walks with. -/
def startDir (r : ReplayData) : Vec3 := r.startParams.startDirection.getD defaultStartDir

/-- getDistance from the validator: the Euclidean distance
sqrt((b.x-a.x)^2 + (b.y-a.y)^2 + (b.z-a.z)^2). -/
noncomputable def getDistance (a b : Vec3) : ℝ :=
  Real.sqrt (((b.x - a.x : ℚ) : ℝ) ^ 2 + ((b.y - a.y : ℚ) : ℝ) ^ 2
    + ((b.z - a.z : ℚ) : ℝ) ^ 2)

/-- The distance-accumulation loop of calculateTotalDistance: from the
current position through each turn's position, plus the final segment to the
death position. -/
noncomputable def pathDistance : Vec3 → List TrajectoryChange → Vec3 → ℝ
  | cur, [], death => getDistance cur death
  | cur, t :: rest, death => getDistance cur t.position + pathDistance t.position rest death

/-- calculateTotalDistance from the validator: total path length from
startPosition (origin when absent) through every trajectory change to
deathPosition. -/
noncomputable def calculateTotalDistance (r : ReplayData) : ℝ :=
  pathDistance (r.startParams.startPosition.getD vzero) r.trajectoryLog r.deathPosition

/-- The validator's score bound: max(10, totalDistance * 10). -/
noncomputable def maxRealisticScore (r : ReplayData) : ℝ :=
  max 10 (calculateTotalDistance r * 10)

/-- isPointOnRay from the validator: the target is accepted when it coincides
with the origin (distance 0), or when the L1 gap between the vector to the
target and direction * distance is below the 0.1 float-tolerance epsilon. -/
noncomputable def isPointOnRay (origin dir target : Vec3) : Prop :=
  getDistance origin target = 0 ∨
    |((target.x - origin.x : ℚ) : ℝ) - (dir.x : ℝ) * getDistance origin target| +
    |((target.y - origin.y : ℚ) : ℝ) - (dir.y : ℝ) * getDistance origin target| +
    |((target.z - origin.z : ℚ) : ℝ) - (dir.z : ℝ) * getDistance origin target| < 0.1

/-- The walk of checkContinuity: every turn's position must lie on the ray
from the current position along the current heading, after which position and
heading advance to the turn's; the final segment must reach the death
position the same way. -/
def checkContinuityAux : Vec3 → Vec3 → List TrajectoryChange → Vec3 → Prop
  | pos, dir, [], death => isPointOnRay pos dir death
  | pos, dir, t :: rest, death =>
    isPointOnRay pos dir t.position ∧ checkContinuityAux t.position t.direction rest death

/-- checkContinuity from the validator, walking from
startPosition/startDirection (origin and (0,0,1) when absent). -/
def checkContinuity (r : ReplayData) : Prop :=
  checkContinuityAux (startPos r) (startDir r) r.trajectoryLog r.deathPosition

/-- The distinct rejection reasons of RoomValidator.validate, one per return
string: "Score without trajectory", "Score too high for distance (...)",
"High score with suspicious low complexity", "Trajectory is not
continuous". -/
inductive ValidationReason where
  | scoreWithoutTrajectory
  | scoreTooHigh
  | lowComplexity
  | notContinuous
deriving DecidableEq

open Classical in
/-- RoomValidator.validate: none means the replay is plausible, some gives
the first failed check's reason, in source order: non-empty evidence for a
score above 10, the score-vs-distance bound, complexity for scores above
1000, and trajectory continuity. -/
noncomputable def validate (r : ReplayData) : Option ValidationReason :=
  if (r.finalScore > 0 ∧ r.trajectoryLog = []) ∧ r.finalScore > 10 then
    some ValidationReason.scoreWithoutTrajectory
  else if (r.finalScore : ℝ) > maxRealisticScore r then
    some ValidationReason.scoreTooHigh
  else if r.finalScore > 1000 ∧ r.trajectoryLog.length < 5 then
    some ValidationReason.lowComplexity
  else if ¬ checkContinuity r then
    some ValidationReason.notContinuous
  else none

/-- Componentwise vector addition, one grid step along a heading. -/
def vadd (a b : Vec3) : Vec3 := { x := a.x + b.x, y := a.y + b.y, z := a.z + b.z }

/-- Modelled from the spec: the state of the trajectory-driven Replay Player
of spec section 4.3.  The client source file implementing it (the trajectory
rewrite of ReplaySystem.ts used by the newest Game, which records direction
changes and a death position) is absent from the repository snapshot; only
its callers and the trajectory data contract are present, while the
ReplaySystem.ts in the snapshot is the superseded tick-indexed player for the
old inputLog/deathTick replay shape.  The state holds the head position, the
current heading, the trajectory changes not yet consumed, how many whole
units the player has stepped since visiting the recorded death position, and
whether the death position has been visited. -/
structure PhantomState where
  pos : Vec3
  dir : Vec3
  pending : List TrajectoryChange
  unitsPastDeath : Nat
  reachedDeath : Bool
deriving DecidableEq

/-- Modelled from the spec: the initial Replay Player state for a
trajectory replay — head at the start position, heading the start direction,
the whole trajectory log pending, death not yet reached. -/
def initState (r : ReplayData) : PhantomState :=
  { pos := startPos r, dir := startDir r, pending := r.trajectoryLog
    unitsPastDeath := 0, reachedDeath := false }

/-- Modelled from the spec: one discrete motion step of the Replay Player.
If the next pending trajectory change is recorded at the current head
position, the heading updates to its direction before the step; the head
then advances one grid unit along the current heading.  The
progress-past-death bookkeeping latches when the head stands on the recorded
death position and counts every further unit stepped. -/
def stepPhantom (death : Vec3) (s : PhantomState) : PhantomState :=
  let atDeath := s.reachedDeath || s.pos = death
  let next :=
    match s.pending with
    | [] => (s.dir, ([] : List TrajectoryChange))
    | c :: rest => if c.position = s.pos then (c.direction, rest) else (s.dir, c :: rest)
  { pos := vadd s.pos next.1
    dir := next.1
    pending := next.2
    unitsPastDeath := if atDeath then s.unitsPastDeath + 1 else s.unitsPastDeath
    reachedDeath := atDeath }

/-- Modelled from the spec: the Replay Player state after n discrete motion
steps. -/
def runSteps (r : ReplayData) : Nat → PhantomState
  | 0 => initState r
  | n + 1 => stepPhantom r.deathPosition (runSteps r n)

/-- Modelled from the spec: a replay is dead once its stepping has advanced
past deathPosition by at least one unit with no further changes pending. -/
def phantomDead (s : PhantomState) : Prop :=
  s.pending = [] ∧ 1 ≤ s.unitsPastDeath

/-- The room invariant's uniqueness half: no two phantoms of the list share a
spawn index. -/
def spawnDistinct (l : List PhantomInfo) : Prop :=
  l.Pairwise (fun a b => a.spawnIndex ≠ b.spawnIndex)

/-- The room invariant: at most MAX_PHANTOMS active phantoms and
pairwise-distinct spawn indices among them. -/
def RoomInvariant (m : RoomMeta) : Prop :=
  m.active_phantoms.length ≤ MAX_PHANTOMS ∧ spawnDistinct m.active_phantoms

instance (l : List PhantomInfo) : Decidable (spawnDistinct l) := by
  unfold spawnDistinct
  infer_instance

instance (m : RoomMeta) : Decidable (RoomInvariant m) := by
  unfold RoomInvariant
  infer_instance

@[simp]
theorem bumpMeta_active (meta0 : RoomMeta) (replay : ReplayData) :
    (bumpMeta meta0 replay).active_phantoms = meta0.active_phantoms := rfl

/-- The spawn-collision lookup misses exactly when no active phantom holds
the candidate spawn index. -/
theorem findSpawnCollision_eq_none {l : List PhantomInfo} {si : Option ℚ} :
    findSpawnCollision l si = none ↔ ∀ p ∈ l, p.spawnIndex ≠ si := by
  induction l with
  | nil => simp [findSpawnCollision]
  | cons p rest ih =>
    by_cases h : p.spawnIndex = si
    · simp [findSpawnCollision, h]
    · simp [findSpawnCollision, h, Option.map_eq_none', ih]

/-- A hit of the spawn-collision lookup is the first phantom at the candidate
spawn index, returned together with its position in the list. -/
theorem findSpawnCollision_eq_some {l : List PhantomInfo} {si : Option ℚ} {i : Nat}
    {inc : PhantomInfo} (h : findSpawnCollision l si = some (i, inc)) :
    ∃ hi : i < l.length, l[i] = inc ∧ inc.spawnIndex = si ∧
      ∀ j (hj : j < l.length), j < i → l[j].spawnIndex ≠ si := by
  induction l generalizing i with
  | nil => simp [findSpawnCollision] at h
  | cons p rest ih =>
    by_cases hp : p.spawnIndex = si
    · simp only [findSpawnCollision, if_pos hp, Option.some.injEq, Prod.mk.injEq] at h
      obtain ⟨hi0, hinc⟩ := h
      cases hi0
      cases hinc
      exact ⟨by simp, by simp, hp, fun j hj hji => absurd hji (by omega)⟩
    · simp only [findSpawnCollision, if_neg hp] at h
      cases hr : findSpawnCollision rest si with
      | none => rw [hr] at h; simp at h
      | some r =>
        obtain ⟨i', inc'⟩ := r
        rw [hr] at h
        simp only [Option.map_some', Option.some.injEq, Prod.mk.injEq] at h
        obtain ⟨hi', hinc'⟩ := h
        cases hi'
        cases hinc'
        obtain ⟨hlt, hget, hsi, hfirst⟩ := ih hr
        refine ⟨by simp [Nat.succ_lt_succ hlt], by simpa using hget, hsi, ?_⟩
        intro j hj hji
        cases j with
        | zero => simpa using hp
        | succ j' =>
          have hj' : j' < rest.length := by simp at hj; omega
          simpa using hfirst j' hj' (by omega)

/-- Case analysis for the weakest-phantom scan: either no scanned entry beats
the seed candidate and the seed is returned, or the scan returns the first
entry attaining the strict minimum of the scanned scores below the seed's
score. -/
theorem findWorstAux_cases (rest : List PhantomInfo) (i wi : Nat) (wp : PhantomInfo) :
    (findWorstAux rest i wi wp = (wi, wp) ∧ ∀ q ∈ rest, wp.score ≤ q.score) ∨
    (∃ (j : Nat) (hj : j < rest.length),
      findWorstAux rest i wi wp = (i + j, rest[j]) ∧
      rest[j].score < wp.score ∧
      (∀ q ∈ rest, rest[j].score ≤ q.score) ∧
      ∀ (k : Nat) (hk : k < rest.length), k < j → rest[j].score < rest[k].score) := by
  induction rest generalizing i wi wp with
  | nil => exact Or.inl ⟨rfl, by simp⟩
  | cons p rest ih =>
    by_cases hp : p.score < wp.score
    · right
      rcases ih (i + 1) i p with ⟨heq, hall⟩ | ⟨j', hj', heq, hlt, hall, hfirst⟩
      · refine ⟨0, by simp, ?_, by simpa using hp, ?_, ?_⟩
        · simpa [findWorstAux, if_pos hp] using heq
        · intro q hq
          rcases List.mem_cons.mp hq with rfl | hq
          · simp
          · simpa using hall q hq
        · intro k hk hk0
          omega
      · refine ⟨j' + 1, by simpa using Nat.succ_lt_succ hj', ?_, ?_, ?_, ?_⟩
        · have : i + 1 + j' = i + (j' + 1) := by omega
          simpa [findWorstAux, if_pos hp, this] using heq
        · simpa using lt_trans hlt hp
        · intro q hq
          rcases List.mem_cons.mp hq with rfl | hq
          · simpa using le_of_lt hlt
          · simpa using hall q hq
        · intro k hk hkj
          cases k with
          | zero => simpa using hlt
          | succ k' =>
            have hk' : k' < rest.length := by simp at hk; omega
            simpa using hfirst k' hk' (by omega)
    · push_neg at hp
      rcases ih (i + 1) wi wp with ⟨heq, hall⟩ | ⟨j', hj', heq, hlt, hall, hfirst⟩
      · left
        refine ⟨by simpa [findWorstAux, not_lt.mpr hp] using heq, ?_⟩
        intro q hq
        rcases List.mem_cons.mp hq with rfl | hq
        · exact hp
        · exact hall q hq
      · right
        refine ⟨j' + 1, by simpa using Nat.succ_lt_succ hj', ?_, ?_, ?_, ?_⟩
        · have : i + 1 + j' = i + (j' + 1) := by omega
          simpa [findWorstAux, not_lt.mpr hp, this] using heq
        · simpa using hlt
        · intro q hq
          rcases List.mem_cons.mp hq with rfl | hq
          · simpa using le_of_lt (lt_of_lt_of_le hlt hp)
          · simpa using hall q hq
        · intro k hk hkj
          cases k with
          | zero => simpa using lt_of_lt_of_le hlt hp
          | succ k' =>
            have hk' : k' < rest.length := by simp at hk; omega
            simpa using hfirst k' hk' (by omega)

/-- The weakest-phantom search returns the element of the list with the
minimal score, at the lowest index attaining that minimum. -/
theorem findWorst_spec {l : List PhantomInfo} {wi : Nat} {wp : PhantomInfo}
    (h : findWorst l = some (wi, wp)) :
    ∃ hwi : wi < l.length, l[wi] = wp ∧
      (∀ q ∈ l, wp.score ≤ q.score) ∧
      ∀ (j : Nat) (hj : j < l.length), j < wi → wp.score < l[j].score := by
  match l with
  | [] => simp [findWorst] at h
  | p :: rest =>
    simp only [findWorst, Option.some.injEq] at h
    rcases findWorstAux_cases rest 1 0 p with ⟨heq, hall⟩ | ⟨j', hj', heq, hlt, hall, hfirst⟩
    · rw [heq] at h
      injection h with h1 h2
      subst h1
      subst h2
      refine ⟨by simp, by simp, ?_, ?_⟩
      · intro q hq
        rcases List.mem_cons.mp hq with rfl | hq
        · exact le_refl _
        · exact hall q hq
      · intro j hj hji
        omega
    · rw [Nat.add_comm 1 j'] at heq
      rw [heq] at h
      injection h with h1 h2
      subst h2
      subst h1
      refine ⟨by simp; omega, by simp, ?_, ?_⟩
      · intro q hq
        rcases List.mem_cons.mp hq with rfl | hq
        · exact le_of_lt hlt
        · exact hall q hq
      · intro j hj hji
        cases j with
        | zero => simpa using hlt
        | succ k' =>
          have hk' : k' < rest.length := by simp at hj; omega
          simpa using hfirst k' hk' (by omega)

/-- Replacing one entry by a phantom whose spawn index clashes with no other
entry keeps the spawn indices pairwise distinct. -/
theorem spawnDistinct_set {l : List PhantomInfo} {i : Nat} {q : PhantomInfo}
    (hl : spawnDistinct l)
    (hq : ∀ j (hj : j < l.length), j ≠ i → l[j].spawnIndex ≠ q.spawnIndex) :
    spawnDistinct (l.set i q) := by
  rw [spawnDistinct, List.pairwise_iff_getElem] at hl ⊢
  intro a b ha hb hab
  have ha' : a < l.length := by simpa using ha
  have hb' : b < l.length := by simpa using hb
  rw [List.getElem_set, List.getElem_set]
  by_cases hia : i = a
  · subst hia
    rw [if_pos rfl, if_neg (by omega)]
    exact (hq b hb' (by omega)).symm
  · rw [if_neg hia]
    by_cases hib : i = b
    · subst hib
      rw [if_pos rfl]
      exact hq a ha' (by omega)
    · rw [if_neg hib]
      exact hl a b ha' hb' hab

/-- Appending a phantom whose spawn index clashes with no existing entry
keeps the spawn indices pairwise distinct. -/
theorem spawnDistinct_append {l : List PhantomInfo} {q : PhantomInfo}
    (hl : spawnDistinct l) (hq : ∀ p ∈ l, p.spawnIndex ≠ q.spawnIndex) :
    spawnDistinct (l ++ [q]) := by
  rw [spawnDistinct, List.pairwise_append]
  exact ⟨hl, by simp [spawnDistinct], fun a ha b hb => by
    simp only [List.mem_singleton] at hb
    subst hb
    exact hq a ha⟩

/-- The metadata produced when the candidate replaces the phantom at list
position i. -/
def replacedMeta (meta0 : RoomMeta) (replay : ReplayData) (i : Nat) : RoomMeta :=
  { bumpMeta meta0 replay with
    active_phantoms := meta0.active_phantoms.set i (newPhantomOf replay) }

/-- The metadata produced when the candidate is appended to a room with a
free slot. -/
def appendedMeta (meta0 : RoomMeta) (replay : ReplayData) : RoomMeta :=
  { bumpMeta meta0 replay with
    active_phantoms := meta0.active_phantoms ++ [newPhantomOf replay] }

/-- Branch equation: a spawn collision the candidate wins replaces the
incumbent in place, deleting its blob and saving the new one. -/
theorem addReplayToRoom_collision_win (seed : String) (meta0 : RoomMeta)
    (replay : ReplayData) {i : Nat} {inc : PhantomInfo}
    (hc : findSpawnCollision meta0.active_phantoms replay.startParams.spawnIndex
      = some (i, inc))
    (hs : replay.finalScore > inc.score) :
    addReplayToRoom seed meta0 replay =
      { admitted := true
        meta := replacedMeta meta0 replay i
        effects := [Effect.deleteReplay seed inc.replayId, Effect.saveReplay seed replay,
                    Effect.saveMeta seed (replacedMeta meta0 replay i)] } := by
  simp only [addReplayToRoom, bumpMeta_active, hc, if_pos hs]
  rfl

/-- Branch equation: a spawn collision the candidate does not strictly win
discards the candidate; only the bumped metadata is saved. -/
theorem addReplayToRoom_collision_lose (seed : String) (meta0 : RoomMeta)
    (replay : ReplayData) {i : Nat} {inc : PhantomInfo}
    (hc : findSpawnCollision meta0.active_phantoms replay.startParams.spawnIndex
      = some (i, inc))
    (hs : ¬ replay.finalScore > inc.score) :
    addReplayToRoom seed meta0 replay =
      { admitted := false
        meta := bumpMeta meta0 replay
        effects := [Effect.saveMeta seed (bumpMeta meta0 replay)] } := by
  simp only [addReplayToRoom, bumpMeta_active, hc, if_neg hs]

/-- Branch equation: no collision and a free slot appends the candidate. -/
theorem addReplayToRoom_append (seed : String) (meta0 : RoomMeta) (replay : ReplayData)
    (hc : findSpawnCollision meta0.active_phantoms replay.startParams.spawnIndex = none)
    (hlen : meta0.active_phantoms.length < MAX_PHANTOMS) :
    addReplayToRoom seed meta0 replay =
      { admitted := true
        meta := appendedMeta meta0 replay
        effects := [Effect.saveReplay seed replay,
                    Effect.saveMeta seed (appendedMeta meta0 replay)] } := by
  simp only [addReplayToRoom, bumpMeta_active, hc, if_pos hlen]
  rfl

/-- Branch equation: no collision, room full, candidate strictly beats the
weakest phantom: the weakest is evicted and replaced in place. -/
theorem addReplayToRoom_full_win (seed : String) (meta0 : RoomMeta) (replay : ReplayData)
    {wi : Nat} {wp : PhantomInfo}
    (hc : findSpawnCollision meta0.active_phantoms replay.startParams.spawnIndex = none)
    (hlen : ¬ meta0.active_phantoms.length < MAX_PHANTOMS)
    (hw : findWorst meta0.active_phantoms = some (wi, wp))
    (hs : replay.finalScore > wp.score) :
    addReplayToRoom seed meta0 replay =
      { admitted := true
        meta := replacedMeta meta0 replay wi
        effects := [Effect.deleteReplay seed wp.replayId, Effect.saveReplay seed replay,
                    Effect.saveMeta seed (replacedMeta meta0 replay wi)] } := by
  simp only [addReplayToRoom, bumpMeta_active, hc, if_neg hlen, hw, if_pos hs]
  rfl

/-- Branch equation: no collision, room full, candidate does not strictly
beat the weakest phantom: the candidate is discarded; only the bumped
metadata is saved. -/
theorem addReplayToRoom_full_lose (seed : String) (meta0 : RoomMeta) (replay : ReplayData)
    {wi : Nat} {wp : PhantomInfo}
    (hc : findSpawnCollision meta0.active_phantoms replay.startParams.spawnIndex = none)
    (hlen : ¬ meta0.active_phantoms.length < MAX_PHANTOMS)
    (hw : findWorst meta0.active_phantoms = some (wi, wp))
    (hs : ¬ replay.finalScore > wp.score) :
    addReplayToRoom seed meta0 replay =
      { admitted := false
        meta := bumpMeta meta0 replay
        effects := [Effect.saveMeta seed (bumpMeta meta0 replay)] } := by
  simp only [addReplayToRoom, bumpMeta_active, hc, if_neg hlen, hw, if_neg hs]

@[simp]
theorem newPhantomOf_spawnIndex (replay : ReplayData) :
    (newPhantomOf replay).spawnIndex = replay.startParams.spawnIndex := rfl

theorem findWorst_eq_none {l : List PhantomInfo} : findWorst l = none ↔ l = [] := by
  cases l <;> simp [findWorst]

theorem roomInvariant_bumpMeta {meta0 : RoomMeta} (replay : ReplayData)
    (h : RoomInvariant meta0) : RoomInvariant (bumpMeta meta0 replay) := h

/-- One admission step preserves the room invariant, whatever the candidate
replay is. -/
theorem addReplayToRoom_invariant (seed : String) (meta0 : RoomMeta) (replay : ReplayData)
    (h : RoomInvariant meta0) : RoomInvariant (addReplayToRoom seed meta0 replay).meta := by
  obtain ⟨hlen, hdist⟩ := h
  have hget := List.pairwise_iff_getElem.mp hdist
  cases hc : findSpawnCollision meta0.active_phantoms replay.startParams.spawnIndex with
  | some r =>
    obtain ⟨i, inc⟩ := r
    obtain ⟨hi, hgi, hsi, _⟩ := findSpawnCollision_eq_some hc
    by_cases hs : replay.finalScore > inc.score
    · rw [addReplayToRoom_collision_win seed meta0 replay hc hs]
      refine ⟨by simpa [replacedMeta] using hlen, ?_⟩
      refine spawnDistinct_set hdist ?_
      intro j hj hji
      simp only [newPhantomOf_spawnIndex]
      rw [← hsi, ← hgi]
      rcases Nat.lt_or_ge j i with hlt | hge
      · exact fun hcontra =>
          (hget j i hj hi hlt) (by rw [hcontra])
      · have hij : i < j := by omega
        exact fun hcontra => (hget i j hi hj hij) (by rw [hcontra])
    · rw [addReplayToRoom_collision_lose seed meta0 replay hc hs]
      exact ⟨hlen, hdist⟩
  | none =>
    have hfresh := findSpawnCollision_eq_none.mp hc
    by_cases hfree : meta0.active_phantoms.length < MAX_PHANTOMS
    · rw [addReplayToRoom_append seed meta0 replay hc hfree]
      constructor
      · simpa [appendedMeta] using hfree
      · exact spawnDistinct_append hdist
          (fun p hp => by simpa using hfresh p hp)
    · cases hw : findWorst meta0.active_phantoms with
      | none =>
        exfalso
        rw [findWorst_eq_none] at hw
        rw [hw] at hfree
        exact hfree (by simp [MAX_PHANTOMS])
      | some w =>
        obtain ⟨wi, wp⟩ := w
        by_cases hs : replay.finalScore > wp.score
        · rw [addReplayToRoom_full_win seed meta0 replay hc hfree hw hs]
          refine ⟨by simpa [replacedMeta] using hlen, ?_⟩
          refine spawnDistinct_set hdist ?_
          intro j hj _
          simpa using hfresh (meta0.active_phantoms[j]) (List.getElem_mem hj)
        · rw [addReplayToRoom_full_lose seed meta0 replay hc hfree hw hs]
          exact ⟨hlen, hdist⟩

/-- A sequence of submissions to one room: each getRoomMeta read observes the
metadata the previous addReplayToRoom persisted. -/
def runSubmissions (seed : String) (meta0 : RoomMeta) (rs : List ReplayData) : RoomMeta :=
  rs.foldl (fun m r => (addReplayToRoom seed m r).meta) meta0

theorem runSubmissions_invariant (seed : String) (meta0 : RoomMeta) (rs : List ReplayData)
    (h : RoomInvariant meta0) : RoomInvariant (runSubmissions seed meta0 rs) := by
  induction rs generalizing meta0 with
  | nil => exact h
  | cons r rs ih => exact ih _ (addReplayToRoom_invariant seed meta0 r h)

/-- When the room respects the phantom bound, assignSpawnIndex skips the
cleanup: it performs no storage writes and leaves the metadata as read. -/
theorem assignSpawnIndex_eq_of_le (seed : String) (meta0 : RoomMeta)
    (hlen : meta0.active_phantoms.length ≤ MAX_PHANTOMS) :
    assignSpawnIndex seed meta0 =
      match firstFree (occupiedSpawnIndices meta0.active_phantoms) 0 with
      | some i => { meta := meta0, spawnIndex := i, usedFallback := false, effects := [] }
      | none => { meta := meta0, spawnIndex := 0, usedFallback := true, effects := [] } := by
  have hnc : ¬ MAX_PHANTOMS < meta0.active_phantoms.length := by omega
  simp only [assignSpawnIndex, if_neg hnc]

/-- Concrete start parameters used by the witnesses. -/
def wStart (si : ℚ) : StartParams :=
  { seed := 42, spawnIndex := some si, initialSpeed := 300
    startPosition := none, startDirection := none }

/-- Concrete replay used by the witnesses. -/
def wReplay (id pid : String) (si score : ℚ) : ReplayData :=
  { id := id, playerId := pid, playerName := "W", timestamp := 0
    startParams := wStart si, finalScore := score, elo := none
    deathPosition := vzero, trajectoryLog := [] }

/-- Concrete phantom record used by the witnesses. -/
def wPhantom (rid : String) (si score : ℚ) : PhantomInfo :=
  { replayId := rid, score := score, spawnIndex := some si, playerId := some "w0" }

/-- Concrete full room (3 phantoms at spawns 0,1,2) used by the witnesses. -/
def wFullMeta : RoomMeta :=
  { seed := "9", total_games_played := 12
    active_phantoms := [wPhantom "ra" 0 5, wPhantom "rb" 1 3, wPhantom "rc" 2 7]
    players_history := ["w0"] }

/-- Concrete room whose single phantom occupies spawn 2 with score 50, used
by the witnesses. -/
def wCollisionMeta : RoomMeta :=
  { seed := "7", total_games_played := 5
    active_phantoms := [wPhantom "rA" 2 50], players_history := ["w0"] }

/-- C1: every room metadata state satisfying the room invariant (at most
MAX_PHANTOMS = 3 active phantoms, pairwise-distinct spawn indices) is taken
to a state satisfying the invariant by addReplayToRoom with any candidate
replay and by assignSpawnIndex with its lazy cleanup; consequently, under
any sequence of submissions to one room, active_phantoms.length never
exceeds MAX_PHANTOMS and no two active phantoms share a spawn index. -/
theorem claim1_room_invariant (seed : String) (meta0 : RoomMeta) (replay : ReplayData)
    (rs : List ReplayData) (h : RoomInvariant meta0) :
    RoomInvariant (addReplayToRoom seed meta0 replay).meta ∧
    RoomInvariant (assignSpawnIndex seed meta0).meta ∧
    (runSubmissions seed meta0 rs).active_phantoms.length ≤ MAX_PHANTOMS ∧
    spawnDistinct (runSubmissions seed meta0 rs).active_phantoms := by
  refine ⟨addReplayToRoom_invariant seed meta0 replay h, ?_,
    (runSubmissions_invariant seed meta0 rs h).1,
    (runSubmissions_invariant seed meta0 rs h).2⟩
  rw [assignSpawnIndex_eq_of_le seed meta0 h.1]
  cases firstFree (occupiedSpawnIndices meta0.active_phantoms) 0 <;> exact h

/-- Witness for C1 at a concrete invariant-satisfying room and a concrete
submission sequence. -/
theorem claim1_room_invariant_witness :
    RoomInvariant (emptyRoomMeta "42") ∧
    (RoomInvariant (addReplayToRoom "42" (emptyRoomMeta "42") (wReplay "r1" "p1" 0 100)).meta ∧
     RoomInvariant (assignSpawnIndex "42" (emptyRoomMeta "42")).meta ∧
     (runSubmissions "42" (emptyRoomMeta "42")
        [wReplay "r1" "p1" 0 100, wReplay "r2" "p2" 1 50, wReplay "r3" "p3" 1 10,
         wReplay "r4" "p4" 2 70, wReplay "r5" "p5" 3 200]).active_phantoms.length
       ≤ MAX_PHANTOMS ∧
     spawnDistinct (runSubmissions "42" (emptyRoomMeta "42")
        [wReplay "r1" "p1" 0 100, wReplay "r2" "p2" 1 50, wReplay "r3" "p3" 1 10,
         wReplay "r4" "p4" 2 70, wReplay "r5" "p5" 3 200]).active_phantoms) :=
  ⟨by decide, claim1_room_invariant "42" (emptyRoomMeta "42") (wReplay "r1" "p1" 0 100)
      [wReplay "r1" "p1" 0 100, wReplay "r2" "p2" 1 50, wReplay "r3" "p3" 1 10,
       wReplay "r4" "p4" 2 70, wReplay "r5" "p5" 3 200] (by decide)⟩

/-- C2: when the candidate's spawn index collides with an active phantom
(the incumbent, sitting at list position i), the tie-break runs instead of
the general rule: a strictly higher candidate score deletes the incumbent's
blob and replaces it in place (admitted); an equal-or-lower score discards
the candidate outright, persisting only the bumped metadata (not
admitted). -/
theorem claim2_spawn_collision (seed : String) (meta0 : RoomMeta) (replay : ReplayData)
    (i : Nat) (inc : PhantomInfo)
    (hc : findSpawnCollision meta0.active_phantoms replay.startParams.spawnIndex
      = some (i, inc)) :
    (∃ hi : i < meta0.active_phantoms.length,
      meta0.active_phantoms[i] = inc ∧
      inc.spawnIndex = replay.startParams.spawnIndex) ∧
    (replay.finalScore > inc.score →
      addReplayToRoom seed meta0 replay =
        { admitted := true
          meta := replacedMeta meta0 replay i
          effects := [Effect.deleteReplay seed inc.replayId, Effect.saveReplay seed replay,
                      Effect.saveMeta seed (replacedMeta meta0 replay i)] }) ∧
    (replay.finalScore ≤ inc.score →
      addReplayToRoom seed meta0 replay =
        { admitted := false
          meta := bumpMeta meta0 replay
          effects := [Effect.saveMeta seed (bumpMeta meta0 replay)] }) := by
  obtain ⟨hi, hgi, hsi, _⟩ := findSpawnCollision_eq_some hc
  refine ⟨⟨hi, hgi, hsi⟩, ?_, ?_⟩
  · intro hs
    exact addReplayToRoom_collision_win seed meta0 replay hc hs
  · intro hs
    exact addReplayToRoom_collision_lose seed meta0 replay hc (not_lt.mpr hs)

/-- Witness for C2: spawn 2 occupied with score 50; a colliding candidate
with score 80 replaces it in place, and a colliding candidate could only be
discarded when not strictly better. -/
theorem claim2_spawn_collision_witness :
    findSpawnCollision wCollisionMeta.active_phantoms
      (wReplay "rNew" "p9" 2 80).startParams.spawnIndex = some (0, wPhantom "rA" 2 50) ∧
    ((∃ hi : (0 : Nat) < wCollisionMeta.active_phantoms.length,
        wCollisionMeta.active_phantoms[0] = wPhantom "rA" 2 50 ∧
        (wPhantom "rA" 2 50).spawnIndex = (wReplay "rNew" "p9" 2 80).startParams.spawnIndex) ∧
     ((wReplay "rNew" "p9" 2 80).finalScore > (wPhantom "rA" 2 50).score →
       addReplayToRoom "7" wCollisionMeta (wReplay "rNew" "p9" 2 80) =
         { admitted := true
           meta := replacedMeta wCollisionMeta (wReplay "rNew" "p9" 2 80) 0
           effects := [Effect.deleteReplay "7" (wPhantom "rA" 2 50).replayId,
                       Effect.saveReplay "7" (wReplay "rNew" "p9" 2 80),
                       Effect.saveMeta "7"
                         (replacedMeta wCollisionMeta (wReplay "rNew" "p9" 2 80) 0)] }) ∧
     ((wReplay "rNew" "p9" 2 80).finalScore ≤ (wPhantom "rA" 2 50).score →
       addReplayToRoom "7" wCollisionMeta (wReplay "rNew" "p9" 2 80) =
         { admitted := false
           meta := bumpMeta wCollisionMeta (wReplay "rNew" "p9" 2 80)
           effects := [Effect.saveMeta "7"
             (bumpMeta wCollisionMeta (wReplay "rNew" "p9" 2 80))] })) :=
  ⟨by decide,
   claim2_spawn_collision "7" wCollisionMeta (wReplay "rNew" "p9" 2 80) 0
     (wPhantom "rA" 2 50) (by decide)⟩

/-- C3: on a full room with no spawn collision, a candidate score equal to
the minimum active score is rejected with the phantom list unchanged, while
a strictly greater score evicts the phantom with the globally lowest score
(lowest index on ties): its blob is deleted and its metadata entry replaced
by the candidate, and the candidate is admitted. -/
theorem claim3_full_room_admission (seed : String) (meta0 : RoomMeta) (replay : ReplayData)
    (m : ℚ)
    (hc : findSpawnCollision meta0.active_phantoms replay.startParams.spawnIndex = none)
    (hfull : meta0.active_phantoms.length = MAX_PHANTOMS)
    (hmem : ∃ p ∈ meta0.active_phantoms, p.score = m)
    (hmin : ∀ p ∈ meta0.active_phantoms, m ≤ p.score) :
    (replay.finalScore = m →
      (addReplayToRoom seed meta0 replay).admitted = false ∧
      (addReplayToRoom seed meta0 replay).meta.active_phantoms = meta0.active_phantoms) ∧
    (replay.finalScore > m →
      ∃ (wi : Nat) (hwi : wi < meta0.active_phantoms.length),
        meta0.active_phantoms[wi].score = m ∧
        (∀ j (hj : j < meta0.active_phantoms.length), j < wi →
          m < meta0.active_phantoms[j].score) ∧
        addReplayToRoom seed meta0 replay =
          { admitted := true
            meta := replacedMeta meta0 replay wi
            effects := [Effect.deleteReplay seed meta0.active_phantoms[wi].replayId,
                        Effect.saveReplay seed replay,
                        Effect.saveMeta seed (replacedMeta meta0 replay wi)] }) := by
  have hlen : ¬ meta0.active_phantoms.length < MAX_PHANTOMS := by omega
  cases hw : findWorst meta0.active_phantoms with
  | none =>
    exfalso
    rw [findWorst_eq_none] at hw
    rw [hw] at hfull
    simp [MAX_PHANTOMS] at hfull
  | some w =>
    obtain ⟨wi, wp⟩ := w
    obtain ⟨hwi, hget, hle, hfirst⟩ := findWorst_spec hw
    have hwm : wp.score = m := by
      obtain ⟨p, hp, hpm⟩ := hmem
      exact le_antisymm (hpm ▸ hle p hp) (hmin wp (hget ▸ List.getElem_mem hwi))
    constructor
    · intro hs
      rw [addReplayToRoom_full_lose seed meta0 replay hc hlen hw
        (by rw [hs, ← hwm]; exact lt_irrefl _)]
      exact ⟨rfl, rfl⟩
    · intro hs
      refine ⟨wi, hwi, by rw [hget, hwm], ?_, ?_⟩
      · intro j hj hji
        rw [← hwm]
        exact hfirst j hj hji
      · rw [hget]
        exact addReplayToRoom_full_win seed meta0 replay hc hlen hw (hwm ▸ hs)

/-- Witness for C3 at a concrete full room with minimum score 3: a
non-colliding candidate with score 4 evicts the weakest phantom. -/
theorem claim3_full_room_admission_witness :
    (findSpawnCollision wFullMeta.active_phantoms
      (wReplay "rd" "p7" 3 4).startParams.spawnIndex = none ∧
     wFullMeta.active_phantoms.length = MAX_PHANTOMS) ∧
    (((wReplay "rd" "p7" 3 4).finalScore = 3 →
      (addReplayToRoom "9" wFullMeta (wReplay "rd" "p7" 3 4)).admitted = false ∧
      (addReplayToRoom "9" wFullMeta (wReplay "rd" "p7" 3 4)).meta.active_phantoms
        = wFullMeta.active_phantoms) ∧
    ((wReplay "rd" "p7" 3 4).finalScore > 3 →
      ∃ (wi : Nat) (hwi : wi < wFullMeta.active_phantoms.length),
        wFullMeta.active_phantoms[wi].score = 3 ∧
        (∀ j (hj : j < wFullMeta.active_phantoms.length), j < wi →
          3 < wFullMeta.active_phantoms[j].score) ∧
        addReplayToRoom "9" wFullMeta (wReplay "rd" "p7" 3 4) =
          { admitted := true
            meta := replacedMeta wFullMeta (wReplay "rd" "p7" 3 4) wi
            effects := [Effect.deleteReplay "9" wFullMeta.active_phantoms[wi].replayId,
                        Effect.saveReplay "9" (wReplay "rd" "p7" 3 4),
                        Effect.saveMeta "9"
                          (replacedMeta wFullMeta (wReplay "rd" "p7" 3 4) wi)] })) :=
  ⟨⟨by decide, by decide⟩,
   claim3_full_room_admission "9" wFullMeta (wReplay "rd" "p7" 3 4) 3 (by decide) (by decide)
     (by decide) (by decide)⟩

/-- A successful free-spawn scan returns an index in range that is free,
and every smaller index from the scan start is occupied. -/
theorem firstFree_some_spec {occ : List ℚ} {start i : Nat}
    (h : firstFree occ start = some i) :
    start ≤ i ∧ i < MAX_SPAWN_POINTS ∧ ((i : ℚ) ∉ occ) ∧
    ∀ j, start ≤ j → j < i → (j : ℚ) ∈ occ := by
  generalize hk : MAX_SPAWN_POINTS - start = k at *
  induction k generalizing start with
  | zero =>
    rw [firstFree, if_neg (by omega)] at h
    exact absurd h (by simp)
  | succ k ih =>
    have hstart : start < MAX_SPAWN_POINTS := by omega
    rw [firstFree, if_pos hstart] at h
    by_cases hmem : (start : ℚ) ∈ occ
    · rw [if_pos hmem] at h
      obtain ⟨h1, h2, h3, h4⟩ := ih h (by omega)
      refine ⟨by omega, h2, h3, ?_⟩
      intro j hj1 hj2
      rcases Nat.eq_or_lt_of_le hj1 with rfl | hlt
      · exact hmem
      · exact h4 j (by omega) hj2
    · rw [if_neg hmem] at h
      simp only [Option.some.injEq] at h
      subst h
      exact ⟨le_refl _, hstart, hmem, fun j hj1 hj2 => absurd hj1 (by omega)⟩

/-- A failed free-spawn scan means every index from the scan start up to
MAX_SPAWN_POINTS is occupied. -/
theorem firstFree_none_spec {occ : List ℚ} {start : Nat}
    (h : firstFree occ start = none) :
    ∀ j, start ≤ j → j < MAX_SPAWN_POINTS → (j : ℚ) ∈ occ := by
  generalize hk : MAX_SPAWN_POINTS - start = k at *
  induction k generalizing start with
  | zero =>
    intro j hj1 hj2
    omega
  | succ k ih =>
    have hstart : start < MAX_SPAWN_POINTS := by omega
    rw [firstFree, if_pos hstart] at h
    by_cases hmem : (start : ℚ) ∈ occ
    · rw [if_pos hmem] at h
      intro j hj1 hj2
      rcases Nat.eq_or_lt_of_le hj1 with rfl | hlt
      · exact hmem
      · exact ih h (by omega) j (by omega) hj2
    · rw [if_neg hmem] at h
      exact absurd h (by simp)

/-- Pigeonhole for the free-spawn scan: fewer occupied entries than spawn
points guarantees a free index. -/
theorem firstFree_exists_of_short {occ : List ℚ}
    (hlen : occ.length < MAX_SPAWN_POINTS) :
    ∃ i, firstFree occ 0 = some i := by
  cases hf : firstFree occ 0 with
  | some i => exact ⟨i, rfl⟩
  | none =>
    exfalso
    have hall := firstFree_none_spec hf
    have h0 : (0 : ℚ) ∈ occ := by
      simpa using hall 0 (by omega) (by simp [MAX_SPAWN_POINTS])
    have h1 : (1 : ℚ) ∈ occ := by
      simpa using hall 1 (by omega) (by simp [MAX_SPAWN_POINTS])
    have h2 : (2 : ℚ) ∈ occ := by
      simpa using hall 2 (by omega) (by simp [MAX_SPAWN_POINTS])
    have h3 : (3 : ℚ) ∈ occ := by
      simpa using hall 3 (by omega) (by simp [MAX_SPAWN_POINTS])
    have hsub : ({0, 1, 2, 3} : Finset ℚ) ⊆ occ.toFinset := by
      intro x hx
      rw [List.mem_toFinset]
      simp only [Finset.mem_insert, Finset.mem_singleton] at hx
      rcases hx with rfl | rfl | rfl | rfl
      · exact h0
      · exact h1
      · exact h2
      · exact h3
    have hcard : ({0, 1, 2, 3} : Finset ℚ).card = 4 := by decide
    have hle1 := Finset.card_le_card hsub
    have hle2 := occ.toFinset_card_le
    rw [hcard] at hle1
    simp [MAX_SPAWN_POINTS] at hlen
    omega

/-- C8: for a room satisfying the invariant, assignSpawnIndex performs no
cleanup and no storage write, never takes the critical-error fallback, and
returns the first index in [0, MAX_SPAWN_POINTS) not occupied by an active
phantom (such an index always exists, since MAX_SPAWN_POINTS exceeds
MAX_PHANTOMS). -/
theorem claim8_assign_spawn_index (seed : String) (meta0 : RoomMeta)
    (h : RoomInvariant meta0) :
    (assignSpawnIndex seed meta0).usedFallback = false ∧
    (assignSpawnIndex seed meta0).meta = meta0 ∧
    (assignSpawnIndex seed meta0).effects = [] ∧
    (assignSpawnIndex seed meta0).spawnIndex < MAX_SPAWN_POINTS ∧
    (((assignSpawnIndex seed meta0).spawnIndex : ℚ) ∉
      occupiedSpawnIndices meta0.active_phantoms) ∧
    ∀ j, j < (assignSpawnIndex seed meta0).spawnIndex →
      (j : ℚ) ∈ occupiedSpawnIndices meta0.active_phantoms := by
  have hocc : (occupiedSpawnIndices meta0.active_phantoms).length < MAX_SPAWN_POINTS := by
    have h1 := h.1
    have h2 : (occupiedSpawnIndices meta0.active_phantoms).length
        ≤ meta0.active_phantoms.length := List.length_filterMap_le _ _
    simp only [MAX_PHANTOMS] at h1
    simp only [MAX_SPAWN_POINTS]
    omega
  obtain ⟨i, hf⟩ := firstFree_exists_of_short hocc
  rw [assignSpawnIndex_eq_of_le seed meta0 h.1, hf]
  obtain ⟨_, hlt, hnotin, hbefore⟩ := firstFree_some_spec hf
  exact ⟨rfl, rfl, rfl, hlt, hnotin, fun j hj => hbefore j (by omega) hj⟩

/-- Witness for C8 at a concrete invariant-satisfying full room occupying
spawns 0, 1 and 2. -/
theorem claim8_assign_spawn_index_witness :
    RoomInvariant wFullMeta ∧
    ((assignSpawnIndex "9" wFullMeta).usedFallback = false ∧
     (assignSpawnIndex "9" wFullMeta).meta = wFullMeta ∧
     (assignSpawnIndex "9" wFullMeta).effects = [] ∧
     (assignSpawnIndex "9" wFullMeta).spawnIndex < MAX_SPAWN_POINTS ∧
     (((assignSpawnIndex "9" wFullMeta).spawnIndex : ℚ) ∉
       occupiedSpawnIndices wFullMeta.active_phantoms) ∧
     ∀ j, j < (assignSpawnIndex "9" wFullMeta).spawnIndex →
       (j : ℚ) ∈ occupiedSpawnIndices wFullMeta.active_phantoms) :=
  ⟨by decide, claim8_assign_spawn_index "9" wFullMeta (by decide)⟩

/-- The malformed-payload conditions of C9, exactly the structural rejects of
processGameOver: missing trajectory log, missing start params or a
non-numeric spawnIndex, an undefined or negative final score, or a missing
death position. -/
def MalformedReplay (r : PartialReplay) : Prop :=
  r.trajectoryLog = none ∨ r.startParams = none ∨
  (∃ sp, r.startParams = some sp ∧ sp.spawnIndex = none) ∨
  r.finalScore = none ∨ (∃ fs, r.finalScore = some fs ∧ fs < 0) ∨
  r.deathPosition = none

/-- C9: a game:over payload whose replay is structurally malformed is
rejected with one of the four descriptive reasons, with no storage write
performed (and processGameOver, a total function, returns rather than
throwing). -/
theorem claim9_malformed_rejected (playerId : String) (now : Nat) (meta0 : RoomMeta)
    (payload : GameOverPayload) (r : PartialReplay)
    (hr : payload.replay = some r) (hm : MalformedReplay r) :
    (processGameOver playerId now meta0 payload).saved = false ∧
    (processGameOver playerId now meta0 payload).effects = [] ∧
    (processGameOver playerId now meta0 payload).message ∈
      (["Invalid replay data", "Invalid start params", "Invalid score",
        "Missing death position"] : List String) := by
  cases htl : r.trajectoryLog with
  | none =>
    have heq : processGameOver playerId now meta0 payload =
        { saved := false, message := "Invalid replay data", replayId := none
          effects := [] } := by
      simp only [processGameOver, hr, htl]
    rw [heq]
    exact ⟨rfl, rfl, by decide⟩
  | some log =>
    cases hsp : r.startParams with
    | none =>
      have heq : processGameOver playerId now meta0 payload =
          { saved := false, message := "Invalid start params", replayId := none
            effects := [] } := by
        simp only [processGameOver, hr, htl, hsp]
      rw [heq]
      exact ⟨rfl, rfl, by decide⟩
    | some sp =>
      cases hsi : sp.spawnIndex with
      | none =>
        have heq : processGameOver playerId now meta0 payload =
            { saved := false, message := "Invalid start params", replayId := none
              effects := [] } := by
          simp only [processGameOver, hr, htl, hsp, hsi]
        rw [heq]
        exact ⟨rfl, rfl, by decide⟩
      | some si =>
        cases hfs : r.finalScore with
        | none =>
          have heq : processGameOver playerId now meta0 payload =
              { saved := false, message := "Invalid score", replayId := none
                effects := [] } := by
            simp only [processGameOver, hr, htl, hsp, hsi, hfs]
          rw [heq]
          exact ⟨rfl, rfl, by decide⟩
        | some fs =>
          by_cases hneg : fs < 0
          · have heq : processGameOver playerId now meta0 payload =
                { saved := false, message := "Invalid score", replayId := none
                  effects := [] } := by
              simp only [processGameOver, hr, htl, hsp, hsi, hfs, if_pos hneg]
            rw [heq]
            exact ⟨rfl, rfl, by decide⟩
          · have hdp : r.deathPosition = none := by
              rcases hm with h | h | ⟨sp', hsp', hsi'⟩ | h | ⟨fs', hfs', hneg'⟩ | h
              · rw [htl] at h; exact absurd h (by simp)
              · rw [hsp] at h; exact absurd h (by simp)
              · rw [hsp] at hsp'
                simp only [Option.some.injEq] at hsp'
                subst hsp'
                rw [hsi] at hsi'
                exact absurd hsi' (by simp)
              · rw [hfs] at h; exact absurd h (by simp)
              · rw [hfs] at hfs'
                simp only [Option.some.injEq] at hfs'
                subst hfs'
                exact absurd hneg' hneg
              · exact h
            have heq : processGameOver playerId now meta0 payload =
                { saved := false, message := "Missing death position", replayId := none
                  effects := [] } := by
              simp only [processGameOver, hr, htl, hsp, hsi, hfs, if_neg hneg, hdp]
            rw [heq]
            exact ⟨rfl, rfl, by decide⟩

/-- Witness for C9: a payload whose replay lacks its death position is
rejected with no storage write. -/
theorem claim9_malformed_rejected_witness :
    (({ seed := 42
        replay := some
          { playerName := none, startParams := some (wStart 0), finalScore := some 10
            elo := none, deathPosition := none
            trajectoryLog := some [] } } : GameOverPayload).replay = some
          { playerName := none, startParams := some (wStart 0), finalScore := some 10
            elo := none, deathPosition := none, trajectoryLog := some [] } ∧
     MalformedReplay
       { playerName := none, startParams := some (wStart 0), finalScore := some 10
         elo := none, deathPosition := none, trajectoryLog := some [] }) ∧
    ((processGameOver "px" 7 (emptyRoomMeta "42")
        { seed := 42
          replay := some
            { playerName := none, startParams := some (wStart 0), finalScore := some 10
              elo := none, deathPosition := none, trajectoryLog := some [] } }).saved
        = false ∧
     (processGameOver "px" 7 (emptyRoomMeta "42")
        { seed := 42
          replay := some
            { playerName := none, startParams := some (wStart 0), finalScore := some 10
              elo := none, deathPosition := none, trajectoryLog := some [] } }).effects
        = [] ∧
     (processGameOver "px" 7 (emptyRoomMeta "42")
        { seed := 42
          replay := some
            { playerName := none, startParams := some (wStart 0), finalScore := some 10
              elo := none, deathPosition := none, trajectoryLog := some [] } }).message ∈
       (["Invalid replay data", "Invalid start params", "Invalid score",
         "Missing death position"] : List String)) :=
  ⟨⟨rfl, Or.inr (Or.inr (Or.inr (Or.inr (Or.inr rfl))))⟩,
   claim9_malformed_rejected "px" 7 (emptyRoomMeta "42") _ _ rfl
     (Or.inr (Or.inr (Or.inr (Or.inr (Or.inr rfl)))))⟩

/-- C10: getRoomMeta never propagates a read failure: every failing read or
parse of meta.json — absent, unreadable or corrupt alike — yields the
freshly-initialized empty room metadata (zero games played, no active
phantoms, empty players history), while a successful parse is returned with
only the players_history migration applied. -/
theorem claim10_getRoomMeta_error_swallowed (seed : String) :
    (∀ e : ReadError, getRoomMeta seed (Except.error e) = emptyRoomMeta seed) ∧
    emptyRoomMeta seed =
      { seed := seed, total_games_played := 0, active_phantoms := []
        players_history := [] } ∧
    ∀ s : StoredRoomMeta, getRoomMeta seed (Except.ok s) =
      { seed := s.seed, total_games_played := s.total_games_played
        active_phantoms := s.active_phantoms
        players_history := s.players_history.getD [] } :=
  ⟨fun _ => rfl, rfl, fun _ => rfl⟩

theorem getDistance_self (a : Vec3) : getDistance a a = 0 := by
  simp [getDistance]

/-- A single trajectory change at the origin, heading along the default +z
direction: the log of a straight run. -/
def straightChange : TrajectoryChange := { position := vzero, direction := defaultStartDir }

/-- Death position of a straight 20-unit run along +z. -/
def deathAt20 : Vec3 := { x := 0, y := 0, z := 20 }

/-- A replay reproducing a straight 20-unit run from the origin with the
given final score. -/
def straightReplay (score : ℚ) : ReplayData :=
  { id := "rs", playerId := "ps", playerName := "S", timestamp := 0
    startParams := wStart 0, finalScore := score, elo := none
    deathPosition := deathAt20, trajectoryLog := [straightChange] }

theorem getDistance_vzero_deathAt20 : getDistance vzero deathAt20 = 20 := by
  have h : ((deathAt20.x - vzero.x : ℚ) : ℝ) ^ 2 + ((deathAt20.y - vzero.y : ℚ) : ℝ) ^ 2
      + ((deathAt20.z - vzero.z : ℚ) : ℝ) ^ 2 = 20 ^ 2 := by
    norm_num [deathAt20, vzero]
  rw [getDistance, h, Real.sqrt_sq (by norm_num : (0:ℝ) ≤ 20)]

/-- Total distance of any replay shaped like the straight 20-unit run. -/
theorem calculateTotalDistance_straight (r : ReplayData)
    (hsp : r.startParams.startPosition = none)
    (hlog : r.trajectoryLog = [straightChange])
    (hdp : r.deathPosition = deathAt20) :
    calculateTotalDistance r = 20 := by
  rw [calculateTotalDistance, hsp, hlog, hdp]
  simp only [Option.getD_none, pathDistance, straightChange]
  rw [getDistance_self, getDistance_vzero_deathAt20]
  norm_num

/-- Any replay shaped like the straight 20-unit run with final score 5000
fails the score-vs-distance bound. -/
theorem validate_straight5000 (r : ReplayData)
    (hsp : r.startParams.startPosition = none)
    (hlog : r.trajectoryLog = [straightChange])
    (hdp : r.deathPosition = deathAt20)
    (hfs : r.finalScore = 5000) :
    validate r = some ValidationReason.scoreTooHigh := by
  have hdist := calculateTotalDistance_straight r hsp hlog hdp
  have h2 : (r.finalScore : ℝ) > maxRealisticScore r := by
    rw [hfs, maxRealisticScore, hdist]
    rw [gt_iff_lt, max_lt_iff]
    constructor <;> norm_num
  rw [validate, if_neg (by rw [hlog]; simp), if_pos h2]

/-- C5: for a replay passing the non-empty-evidence check, validation fails
with the score-too-high-for-distance reason exactly when finalScore exceeds
max(10, totalDistance * 10), totalDistance being the summed Euclidean
distances from the start position (origin when absent) through each
trajectory change to the death position. -/
theorem claim5_score_distance_bound (r : ReplayData)
    (h : ¬ ((r.finalScore > 0 ∧ r.trajectoryLog = []) ∧ r.finalScore > 10)) :
    validate r = some ValidationReason.scoreTooHigh ↔
      (r.finalScore : ℝ) > max 10 (calculateTotalDistance r * 10) := by
  rw [validate, if_neg h]
  by_cases h2 : (r.finalScore : ℝ) > maxRealisticScore r
  · rw [if_pos h2]
    exact iff_of_true rfl (by simpa [maxRealisticScore] using h2)
  · rw [if_neg h2]
    constructor
    · intro hcontra
      exfalso
      by_cases h3 : r.finalScore > 1000 ∧ r.trajectoryLog.length < 5
      · rw [if_pos h3] at hcontra
        exact ValidationReason.noConfusion (Option.some.inj hcontra)
      · rw [if_neg h3] at hcontra
        by_cases h4 : ¬ checkContinuity r
        · rw [if_pos h4] at hcontra
          exact ValidationReason.noConfusion (Option.some.inj hcontra)
        · rw [if_neg h4] at hcontra
          exact Option.noConfusion hcontra
    · intro hr2
      exact absurd (by simpa [maxRealisticScore] using hr2) h2

/-- Witness for C5: the straight 20-unit run with score 5000 fails the bound
(5000 > max(10, 200)) and the same run with score 15 passes it. -/
theorem claim5_score_distance_bound_witness :
    (¬ (((straightReplay 5000).finalScore > 0 ∧ (straightReplay 5000).trajectoryLog = []) ∧
        (straightReplay 5000).finalScore > 10)) ∧
    validate (straightReplay 5000) = some ValidationReason.scoreTooHigh ∧
    validate (straightReplay 15) ≠ some ValidationReason.scoreTooHigh := by
  have hne : ∀ s : ℚ, ¬ (((straightReplay s).finalScore > 0 ∧
      (straightReplay s).trajectoryLog = []) ∧ (straightReplay s).finalScore > 10) := by
    intro s hcontra
    simpa [straightReplay] using hcontra.1.2
  have hdist := calculateTotalDistance_straight (straightReplay 5000) rfl rfl rfl
  have hdist15 := calculateTotalDistance_straight (straightReplay 15) rfl rfl rfl
  refine ⟨hne 5000, ?_, ?_⟩
  · refine (claim5_score_distance_bound (straightReplay 5000) (hne 5000)).mpr ?_
    rw [hdist]
    rw [gt_iff_lt, max_lt_iff]
    constructor <;> norm_num [straightReplay]
  · intro hcontra
    have := (claim5_score_distance_bound (straightReplay 15) (hne 15)).mp hcontra
    rw [hdist15] at this
    rw [gt_iff_lt, max_lt_iff] at this
    have h200 := this.2
    norm_num [straightReplay] at h200

/-- The list of ray segments the continuity walk visits: current position,
current heading, and the target that must lie on the ray, for every
trajectory change and for the final segment to the death position. -/
def walkSegments : Vec3 → Vec3 → List TrajectoryChange → Vec3 → List (Vec3 × Vec3 × Vec3)
  | pos, dir, [], death => [(pos, dir, death)]
  | pos, dir, t :: rest, death =>
    (pos, dir, t.position) :: walkSegments t.position t.direction rest death

theorem checkContinuityAux_iff_walk (log : List TrajectoryChange) :
    ∀ (pos dir death : Vec3),
      checkContinuityAux pos dir log death ↔
        ∀ seg ∈ walkSegments pos dir log death, isPointOnRay seg.1 seg.2.1 seg.2.2 := by
  induction log with
  | nil =>
    intro pos dir death
    simp [checkContinuityAux, walkSegments]
  | cons t rest ih =>
    intro pos dir death
    simp [checkContinuityAux, walkSegments, ih t.position t.direction death]

/-- C6: the continuity check passes exactly when, walking from the start
position and heading (origin and (0,0,1) when absent) through each
trajectory change in order, every change's target — and the final death
position — lies on the ray from the current position along the current
heading within the 0.1 epsilon; and validate reports the non-continuous
reason exactly when every earlier check passes and this walk fails. -/
theorem claim6_continuity_check (r : ReplayData) :
    (checkContinuity r ↔
      ∀ seg ∈ walkSegments (startPos r) (startDir r) r.trajectoryLog r.deathPosition,
        isPointOnRay seg.1 seg.2.1 seg.2.2) ∧
    (validate r = some ValidationReason.notContinuous ↔
      (¬ ((r.finalScore > 0 ∧ r.trajectoryLog = []) ∧ r.finalScore > 10) ∧
       ¬ ((r.finalScore : ℝ) > maxRealisticScore r) ∧
       ¬ (r.finalScore > 1000 ∧ r.trajectoryLog.length < 5) ∧
       ¬ checkContinuity r)) := by
  constructor
  · rw [checkContinuity]
    exact checkContinuityAux_iff_walk r.trajectoryLog (startPos r) (startDir r) r.deathPosition
  · rw [validate]
    by_cases h1 : (r.finalScore > 0 ∧ r.trajectoryLog = []) ∧ r.finalScore > 10
    · rw [if_pos h1]
      constructor
      · intro hcontra
        exact absurd (Option.some.inj hcontra) (by simp)
      · intro hcontra
        exact absurd h1 hcontra.1
    · rw [if_neg h1]
      by_cases h2 : (r.finalScore : ℝ) > maxRealisticScore r
      · rw [if_pos h2]
        constructor
        · intro hcontra
          exact absurd (Option.some.inj hcontra) (by simp)
        · intro hcontra
          exact absurd h2 hcontra.2.1
      · rw [if_neg h2]
        by_cases h3 : r.finalScore > 1000 ∧ r.trajectoryLog.length < 5
        · rw [if_pos h3]
          constructor
          · intro hcontra
            exact absurd (Option.some.inj hcontra) (by simp)
          · intro hcontra
            exact absurd h3 hcontra.2.2.1
        · rw [if_neg h3]
          by_cases h4 : ¬ checkContinuity r
          · rw [if_pos h4]
            exact iff_of_true rfl ⟨h1, h2, h3, h4⟩
          · rw [if_neg h4]
            constructor
            · intro hcontra
              exact Option.noConfusion hcontra
            · intro hcontra
              exact absurd hcontra.2.2.2 h4

/-- The game:over partial replay of the counterexample: structurally
well-formed, but a straight 20-unit run claiming 5000 points — implausible
under the validator's score-vs-distance bound. -/
def cxPartialReplay : PartialReplay :=
  { playerName := some "S", startParams := some (wStart 0), finalScore := some 5000
    elo := none, deathPosition := some deathAt20, trajectoryLog := some [straightChange] }

/-- The counterexample payload for room seed 42. -/
def cxPayload : GameOverPayload := { seed := 42, replay := some cxPartialReplay }

/-- The complete ReplayData processGameOver builds from cxPayload for player
"ps" at time 0. -/
def cxReplay : ReplayData :=
  { id := mkReplayId "ps" 0, playerId := "ps", playerName := "S", timestamp := 0
    startParams := wStart 0, finalScore := 5000, elo := none
    deathPosition := deathAt20, trajectoryLog := [straightChange] }

/-- Counterexample to C4: the complete replay built from cxPayload fails
RoomValidator.validate (score too high for distance), yet processGameOver —
which never invokes the validator — passes it to addReplayToRoom, admits it
into the empty room and persists its blob. -/
theorem claim4_counterexample :
    validate cxReplay = some ValidationReason.scoreTooHigh ∧
    processGameOver "ps" 0 (emptyRoomMeta "42") cxPayload =
      { saved := true
        message := "Replay saved! You are now a phantom in this room."
        replayId := some (mkReplayId "ps" 0)
        effects := [Effect.saveReplay "42" cxReplay,
                    Effect.saveMeta "42" (appendedMeta (emptyRoomMeta "42") cxReplay)] } :=
  ⟨validate_straight5000 cxReplay rfl rfl rfl rfl, by decide⟩

/-- C4 (amended): only the structural checks of processGameOver run before
admission — whenever processGameOver performs any storage write, the payload
carried a replay with a trajectory log, start params with a numeric spawn
index, a defined non-negative final score and a death position;
RoomValidator.validate is not invoked on the submission path, so a replay
failing its plausibility checks can still reach addReplayToRoom. -/
theorem claim4_structural_checks_before_write (playerId : String) (now : Nat)
    (meta0 : RoomMeta) (payload : GameOverPayload)
    (h : (processGameOver playerId now meta0 payload).effects ≠ []) :
    ∃ r log sp si fs dp, payload.replay = some r ∧ r.trajectoryLog = some log ∧
      r.startParams = some sp ∧ sp.spawnIndex = some si ∧ r.finalScore = some fs ∧
      ¬ fs < 0 ∧ r.deathPosition = some dp := by
  cases hrep : payload.replay with
  | none => exact absurd (by simp [processGameOver, hrep]) h
  | some r =>
    cases htl : r.trajectoryLog with
    | none => exact absurd (by simp [processGameOver, hrep, htl]) h
    | some log =>
      cases hsp : r.startParams with
      | none => exact absurd (by simp [processGameOver, hrep, htl, hsp]) h
      | some sp =>
        cases hsi : sp.spawnIndex with
        | none => exact absurd (by simp [processGameOver, hrep, htl, hsp, hsi]) h
        | some si =>
          cases hfs : r.finalScore with
          | none => exact absurd (by simp [processGameOver, hrep, htl, hsp, hsi, hfs]) h
          | some fs =>
            by_cases hneg : fs < 0
            · exact absurd
                (by simp [processGameOver, hrep, htl, hsp, hsi, hfs, if_pos hneg]) h
            · cases hdp : r.deathPosition with
              | none =>
                exact absurd
                  (by simp [processGameOver, hrep, htl, hsp, hsi, hfs, if_neg hneg, hdp]) h
              | some dp =>
                exact ⟨r, log, sp, si, fs, dp, rfl, htl, hsp, hsi, hfs, hneg, hdp⟩

/-- Witness for the amended C4 at the concrete counterexample payload, whose
admission writes two storage effects. -/
theorem claim4_structural_checks_before_write_witness :
    (processGameOver "ps" 0 (emptyRoomMeta "42") cxPayload).effects ≠ [] ∧
    (∃ r log sp si fs dp, cxPayload.replay = some r ∧ r.trajectoryLog = some log ∧
      r.startParams = some sp ∧ sp.spawnIndex = some si ∧ r.finalScore = some fs ∧
      ¬ fs < 0 ∧ r.deathPosition = some dp) :=
  ⟨by decide,
   claim4_structural_checks_before_write "ps" 0 (emptyRoomMeta "42") cxPayload (by decide)⟩

/-- The death-position latch of the modelled Replay Player records exactly
whether some earlier state of the run stood on the recorded death
position. -/
theorem runSteps_reachedDeath_iff (r : ReplayData) (n : Nat) :
    (runSteps r n).reachedDeath = true ↔
      ∃ m, m < n ∧ (runSteps r m).pos = r.deathPosition := by
  induction n with
  | zero => simp [runSteps, initState]
  | succ n ih =>
    simp only [runSteps, stepPhantom, Bool.or_eq_true, decide_eq_true_eq]
    constructor
    · rintro (h | h)
      · obtain ⟨m, hm, hpos⟩ := ih.mp h
        exact ⟨m, by omega, hpos⟩
      · exact ⟨n, by omega, h⟩
    · rintro ⟨m, hm, hpos⟩
      rcases Nat.lt_or_ge m n with hlt | hge
      · exact Or.inl (ih.mpr ⟨m, hlt, hpos⟩)
      · have : m = n := by omega
        subst this
        exact Or.inr hpos

/-- The modelled Replay Player has stepped at least one unit past the death
position exactly when the death-position latch is set. -/
theorem runSteps_unitsPastDeath_pos_iff (r : ReplayData) (n : Nat) :
    1 ≤ (runSteps r n).unitsPastDeath ↔ (runSteps r n).reachedDeath = true := by
  induction n with
  | zero => simp [runSteps, initState]
  | succ n ih =>
    simp only [runSteps, stepPhantom]
    by_cases h : ((runSteps r n).reachedDeath
        || decide ((runSteps r n).pos = r.deathPosition)) = true
    · simp [h]
    · simp only [Bool.or_eq_true, decide_eq_true_eq, not_or] at h
      have hb : ((runSteps r n).reachedDeath
          || decide ((runSteps r n).pos = r.deathPosition)) = false := by
        simp [h.1, h.2]
      rw [hb]
      simp [ih, h.1]

/-- C7: the modelled trajectory Replay Player's death is positional — after
any number of discrete steps, the phantom is dead exactly when no trajectory
changes are pending and some strictly earlier step stood on the recorded
deathPosition (so the stepping has since advanced at least one unit past
it); no tick index occurs in the death condition. -/
theorem claim7_death_positional (r : ReplayData) (n : Nat) :
    phantomDead (runSteps r n) ↔
      ((runSteps r n).pending = [] ∧
       ∃ m, m < n ∧ (runSteps r m).pos = r.deathPosition) := by
  rw [phantomDead, runSteps_unitsPastDeath_pos_iff, runSteps_reachedDeath_iff]

end Snake3d
